import Mathlib

/-!
Shallow embedding of `pyorient/ogm/batch.py`: the batch-script builder
(`Batch`), its variable registry, conditional branches (`BatchBranch`),
the compiled/deferred execution wrapper (`CompiledBatch`), and the
multi-variable collection protocol (`Batch.collect`).

Modelling conventions:
* Python lists of statements become `List String`; the block stack
  (`self.stack`) is a `List (List String)` with the bottom block at the
  head and the top block (`stack[-1]`) at the end, matching Python's
  list order.
* The variable dict (`self.variables`) is an association list; insertion
  conses at the head and lookup takes the first match, which models
  dict overwrite-on-reassignment for lookups.
* The global sanitizer hook `Batch.clean_name` is modelled in its default
  state (`None`), which is the configuration every claim addresses; hence
  `cleaned` in `return_string` is the identity and `__setitem__` stores
  keys verbatim.
* External collaborators (the network client, the materializer
  `g.elements_from_records` / `g.element_from_record`, the value-to-text
  converter `ArgConverter`, the cache hook) are abstracted: rendered
  command/converter text is carried inside values, and materialization is
  a function parameter.
* Python exceptions become `Except` values; a raise that happens after a
  mutation returns the mutated state together with the error, matching
  Python semantics where the object keeps its mutated fields.
-/

namespace PyorientBatch

/-- Kind tag of a batch variable, determined by the class chosen for it in
`Batch.__setitem__` (`BatchVariable` = Plain, `BatchVertexVariable`,
`BatchEdgeVariable`, `BatchQueryVariable`). -/
inductive VarKind where
  | Plain
  | Vertex
  | Edge
  | QueryResult
deriving DecidableEq, Repr

/-- Modelled from the spec: the command classes of `commands.py`
(`Command`, `VertexCommand`, `CreateEdgeCommand`, `RetrievalCommand`) and
the non-command values are not under `src/`; per the spec (sections 1 and
4.1) commands are external command objects whose rendering `str(value)` is
text, and non-command values are converted to dialect text by the external
converter `ArgConverter.convert_to`. Each constructor carries the rendered
text the code would obtain. `varval` models a value that is itself a
`BatchVariable` (tested by `isinstance(value, BatchVariable)` in the
non-command branch of `__setitem__`); it is not a `Command`, and carries
the variable's kind, its Python `str` rendering and its converter
rendering. `plainVal` likewise carries both renderings. -/
inductive BValue where
  | vertexCmd (text : String)
  | edgeCmd (text : String)
  | retrievalCmd (text : String)
  | bareCmd (text : String)
  | varval (kind : VarKind) (pystr : String) (conv : String)
  | plainVal (pystr : String) (conv : String)
deriving DecidableEq, Repr

/-- The text used on the right-hand side of a `LET` statement in
`__setitem__`: `str(value)` for a `Command`, otherwise
`ArgConverter.convert_to(ArgConverter.Vertex, value, self)`. -/
def BValue.letText : BValue → String
  | .vertexCmd t => t
  | .edgeCmd t => t
  | .retrievalCmd t => t
  | .bareCmd t => t
  | .varval _ _ c => c
  | .plainVal _ c => c

/-- The text `str(value)` used by the slice-key (side-effect only) branch
of `__setitem__`. -/
def BValue.pyText : BValue → String
  | .vertexCmd t => t
  | .edgeCmd t => t
  | .retrievalCmd t => t
  | .bareCmd t => t
  | .varval _ s _ => s
  | .plainVal s _ => s

/-- Which `BatchVariable` subclass `__setitem__` chooses (`VarType`),
expressed as the kind tag: `VertexCommand` gives `BatchVertexVariable`,
`CreateEdgeCommand` gives `BatchEdgeVariable`, `RetrievalCommand` gives
`BatchQueryVariable`, a bare `Command` keeps the default `BatchVariable`,
a `BatchVariable` value keeps that value's own class
(`VarType = value.__class__`), and any other value keeps the default. -/
def varTypeOf : BValue → VarKind
  | .vertexCmd _ => .Vertex
  | .edgeCmd _ => .Edge
  | .retrievalCmd _ => .QueryResult
  | .bareCmd _ => .Plain
  | .varval k _ _ => k
  | .plainVal _ _ => .Plain

/-- A `BatchVariable` (with its subclasses encoded by `kind`): `_id` is the
`$`-prefixed reference string, `value` is the stored `_value`. -/
structure BatchVariable where
  id : String
  kind : VarKind
  value : BValue
deriving DecidableEq, Repr

/-- The `__copy__` of a `BatchVariable`: `type(self)(self._id, self._value)`
builds a fresh object with the same fields. -/
def BatchVariable.copy (v : BatchVariable) : BatchVariable :=
  ⟨v.id, v.kind, v.value⟩

/-- Lookup in the variables map (first match, modelling dict lookup with
head-insertion overwrite). -/
def lookupVar : List (String × BatchVariable) → String → Option BatchVariable
  | [], _ => none
  | (k, v) :: rest, name => if k = name then some v else lookupVar rest name

/-- The mutable state of a `Batch`: the block stack (`self.stack`, bottom
block first, `stack[-1]` is the last element), the variables map and the
compile flag. The graph, brokers and cache hook are external collaborators
and are not part of the script-building state. -/
structure Batch where
  stack : List (List String)
  varmap : List (String × BatchVariable)
  compile : Bool
deriving DecidableEq, Repr

/-- The leading statement placed in the bottom block by `Batch.__init__`:
`BEGIN ISOLATION REPEATABLE_READ` when `isolation_level` equals
`Batch.REPEATABLE_READ` (the integer 1), plain `BEGIN` otherwise. -/
def begin_statement (iso : Nat) : String :=
  if iso = 1 then "BEGIN ISOLATION REPEATABLE_READ" else "BEGIN"

/-- `Batch.__init__`: one block holding the `BEGIN` statement, no
variables. (The broker-registry loop touches only external state.) -/
def mkBatch (iso : Nat) (compile : Bool) : Batch :=
  ⟨[[begin_statement iso]], [], compile⟩

/-- Apply `f` to the last element of a list (Python `l[-1] = f(l[-1])`
or in-place mutation of `l[-1]`); on an empty list (never reached from
the API, Python would raise `IndexError`) this is the identity. -/
def modifyLast (f : α → α) : List α → List α
  | [] => []
  | [a] => [f a]
  | a :: b :: rest => a :: modifyLast f (b :: rest)

/-- `self.stack[-1].append(line)`. -/
def Batch.appendStmt (st : Batch) (line : String) : Batch :=
  { st with stack := modifyLast (fun b => b ++ [line]) st.stack }

/-- `Batch.__str__`: newline-join of the top block `self.stack[-1]`. -/
def Batch.str (st : Batch) : String :=
  String.intercalate "\n" (st.stack.getLast?.getD [])

/-- `Batch.clear`: empty the variables map and truncate the bottom block
to its first statement (`self.stack[0] = self.stack[0][:1]`). -/
def Batch.clear (st : Batch) : Batch :=
  { st with
    varmap := [],
    stack := match st.stack with
      | [] => []
      | b :: rest => b.take 1 :: rest }

/-- `Batch.INVALID_CHARS`: `string.punctuation` without the underscore,
plus `string.whitespace` (ASCII, as in CPython's `string` module). -/
def INVALID_CHARS : List Char :=
  "!\x22#$%&\x27()*+,-./:;<=>?@[\\]^\x60\x7b|\x7d~ \t\n\r\x0b\x0c".data

/-- Membership in `Batch.INVALID_CHARS`. -/
def charInvalid (c : Char) : Bool := INVALID_CHARS.contains c

/-- A name that passes the checks of `copy_variable` when no sanitizer is
installed: nonempty, no invalid character, does not begin with a digit. -/
def valid_name (s : String) : Bool :=
  !(s.data.any charInvalid) && s != "" && !(s.front.isDigit)

/-- The exceptions raised inside `Batch.__getitem__` and its helper
`copy_variable`: `ValueError` for an invalid variable name, `KeyError`
from the dict lookup of a missing name, `IndexError` from subscripting an
empty string, `TypeError` from subscripting `None`. -/
inductive BatchError where
  | valueError
  | keyError
  | indexError
  | typeError
deriving DecidableEq, Repr

/-- `Batch.__getitem__.copy_variable` in the default configuration
(`Batch.clean_name is None`): raise `ValueError` if the name contains a
character of `INVALID_CHARS` (checked first) or begins with a digit
(`name[0]` raises `IndexError` on the empty string before `isdigit` can
run); otherwise return a copy of the stored variable, where a missing name
raises `KeyError`. -/
def copy_variable (vars : List (String × BatchVariable)) (name : String) :
    Except BatchError BatchVariable :=
  if name.data.any charInvalid then Except.error BatchError.valueError
  else if name = "" then Except.error BatchError.indexError
  else if name.front.isDigit then Except.error BatchError.valueError
  else match lookupVar vars name with
    | some v => Except.ok v.copy
    | none => Except.error BatchError.keyError

/-- A value usable as a `RETURN` target in `Batch.return_string`: a string
(a `$`-reference or a plain literal), a `Query` object (carried as its
rendered text; `Query` lives outside `src/` and is modelled from the spec
as a retrieval-query object that renders parenthesized and is truthy), a
list or tuple of variable names, a dict of label/variable-name pairs, or
any other object (carried as its `str` text together with its Python
truthiness). -/
inductive RKey where
  | str (s : String)
  | query (q : String)
  | listK (vs : List String)
  | dictK (kvs : List (String × String))
  | other (truthy : Bool) (s : String)
deriving DecidableEq, Repr

/-- Python truthiness of an `RKey`: empty strings and empty collections are
falsy. -/
def RKey.truthy : RKey → Bool
  | .str s => s != ""
  | .query _ => true
  | .listK vs => !vs.isEmpty
  | .dictK kvs => !kvs.isEmpty
  | .other t _ => t

/-- Python `repr` of a string, modelled for strings without quote,
backslash or non-printable characters (the only ones the dialect-side
names and literals use): wrap in single quotes. -/
def pyRepr (s : String) : String := "\x27" ++ s ++ "\x27"

/-- `Batch.return_string` with no sanitizer installed (`cleaned` is the
identity): a string starting with `$` renders as a reference, any other
nonempty string as a `repr` literal and the empty string raises
`IndexError` (`variables[0]` on `''`, modelled as `none`); a `Query`
renders parenthesized; a list renders as bracketed `$`-references; a dict
renders as brace-delimited `repr(key):$value` pairs; anything else renders
by `str`. -/
def return_string : RKey → Option String
  | .str s =>
      if s = "" then none
      else if s.front = '$' then some ("$" ++ s.drop 1)
      else some (pyRepr s)
  | .query q => some ("(" ++ q ++ ")")
  | .listK vs =>
      some ("[" ++ String.intercalate "," (vs.map (fun v => "$" ++ v)) ++ "]")
  | .dictK kvs =>
      some ("\x7b" ++
        String.intercalate "," (kvs.map (fun p => pyRepr p.1 ++ ":$" ++ p.2)) ++
        "\x7d")
  | .other _ s => some s

/-- A key passed to `Batch.__getitem__`: a slice (with optional start, stop
and step, the step being an integer) or a plain key. -/
inductive BKey where
  | slice (start : Option RKey) (stop : Option String) (step : Option Int)
  | plain (k : RKey)
deriving DecidableEq, Repr

/-- Python truthiness of `key.step` (an optional integer): `None` and `0`
are falsy. -/
def stepT : Option Int → Bool
  | none => false
  | some n => n != 0

/-- `str(key.step)` as interpolated by `'COMMIT RETRY {}'.format(...)`. -/
def stepText : Option Int → String
  | none => "None"
  | some n => toString n

/-- The multi-record capture of `memoized_query_response`: the variable
object is fetched from the (not yet cleared) variables map under
`returned[1:]`, and the memoized check is whether it is a
`BatchQueryVariable`, i.e. whether its kind is `QueryResult`; a missing
entry gives `False`. -/
def capturedBQV (vars : List (String × BatchVariable)) (returned : String) :
    Bool :=
  match lookupVar vars (returned.drop 1) with
  | some v => decide (v.kind = VarKind.QueryResult)
  | none => false

/-- The value produced by `Batch.__getitem__`: either a copied variable
(no-commit read) or a committed batch, carrying the script text snapshot
taken before `clear()`, the rendered return string, and the captured
`BatchQueryVariable` test used by the result-handling closure. -/
inductive GetResult where
  | variable (v : BatchVariable)
  | committed (script : String) (returned : String) (bqv : Bool)
deriving DecidableEq, Repr

/-- The tail of `Batch.__getitem__` after the finalize line is chosen
(lines 144-190): append the line, then evaluate
`memoized_query_response(self.variables)` — whose body subscripts
`returned[1:]` and therefore raises `TypeError` when there is no return
value (`returned is None`), with the append already performed — then
snapshot the script text and `clear()`. -/
def Batch.finalize (st : Batch) (line : String) (returned : Option String) :
    Batch × Except BatchError GetResult :=
  let st1 := st.appendStmt line
  match returned with
  | none => (st1, Except.error BatchError.typeError)
  | some r =>
      let bqv := capturedBQV st1.varmap r
      let script := st1.str
      (st1.clear, Except.ok (GetResult.committed script r bqv))

/-- The two commit-with-optional-return branches of `Batch.__getitem__`:
when `key.start` is truthy, render it (`Batch.return_string`) and append
`<commitLine>\nRETURN <rendered>`, otherwise append `<commitLine>` alone
(leaving `returned` as `None`). -/
def Batch.commit_with_return (st : Batch) (commitLine : String) :
    Option RKey → Batch × Except BatchError GetResult
  | some k =>
      if k.truthy then
        match return_string k with
        | some r => st.finalize (commitLine ++ "\nRETURN " ++ r) (some r)
        | none => (st, Except.error BatchError.indexError)
      else st.finalize commitLine none
  | none => st.finalize commitLine none

/-- `Batch.__getitem__`: a slice with truthy step commits with
`COMMIT RETRY <step>`; otherwise a truthy stop performs a pure no-commit
variable copy; otherwise plain `COMMIT`; a truthy start additionally
renders a `RETURN`. A plain (non-slice) key renders unconditionally and
commits with `COMMIT\nRETURN <rendered key>`. -/
def Batch.getitem (st : Batch) : BKey → Batch × Except BatchError GetResult
  | .slice start stop step =>
      if stepT step then
        st.commit_with_return ("COMMIT RETRY " ++ stepText step) start
      else
        (match stop with
         | some name =>
             if name != "" then
               match copy_variable st.varmap name with
               | Except.ok v => (st, Except.ok (GetResult.variable v))
               | Except.error e => (st, Except.error e)
             else st.commit_with_return "COMMIT" start
         | none => st.commit_with_return "COMMIT" start)
  | .plain k =>
      match return_string k with
      | some r => st.finalize ("COMMIT\nRETURN " ++ r) (some r)
      | none => (st, Except.error BatchError.indexError)

/-- How the armed executor of `make_batch_executor` treats a response. -/
inductive Handled (ρ : Type) where
  | discarded
  | recordSet (rs : List ρ)
  | single (r : ρ)
  | noneResult
deriving DecidableEq, Repr

/-- The result-processing of the handler built by `make_batch_executor`
(reachable only when a rendered return string exists, see
`Batch.finalize`): a falsy `returned` executes and discards; a rendered
return string starting with `[` or `{` feeds the whole (nonempty)
response to the materializer as a record set; otherwise a nonempty
response is materialized as a set when it has more than one record or the
captured variable test holds (`is_query_response`), else only its first
record is materialized; an empty response yields `None`. -/
def handle_response (returned : String) (bqv : Bool) (response : List ρ) :
    Handled ρ :=
  if returned = "" then Handled.discarded
  else if returned.front = '[' || returned.front = Char.ofNat 123 then
    match response with
    | [] => Handled.noneResult
    | _ => Handled.recordSet response
  else
    match response with
    | [] => Handled.noneResult
    | r :: rest =>
        if (r :: rest).length > 1 || bqv then Handled.recordSet (r :: rest)
        else Handled.single r

/-- A key passed to `Batch.__setitem__`: a slice (side-effect only
statement) or a variable name. -/
inductive SetKey where
  | sliceKey
  | name (s : String)
deriving DecidableEq, Repr

/-- `Batch.__setitem__` with no sanitizer installed (keys are stored
verbatim): a slice key appends the rendered value as a bare statement; a
name key appends `LET <key> = <rendered value>` and registers a variable
of the class chosen by `varTypeOf`, with reference `'$' + key`. -/
def Batch.setitem (st : Batch) (key : SetKey) (value : BValue) : Batch :=
  match key with
  | .sliceKey => st.appendStmt value.pyText
  | .name k =>
      let st1 := st.appendStmt ("LET " ++ k ++ " = " ++ value.letText)
      { st1 with
        varmap := (k, BatchVariable.mk ("$" ++ k) (varTypeOf value) value) ::
          st1.varmap }

/-- `Batch.sleep`. -/
def Batch.sleep (st : Batch) (ms : Nat) : Batch :=
  st.appendStmt ("sleep " ++ toString ms)

/-- The commit statement of `Batch.commit`:
`'COMMIT' + (' RETRY {}'.format(retries) if retries else '')` — the
`RETRY` clause is added only when `retries` is truthy, so `0` gives plain
`COMMIT`. -/
def commit_statement : Option Int → String
  | some n => if n != 0 then "COMMIT RETRY " ++ toString n else "COMMIT"
  | none => "COMMIT"

/-- `Batch.commit`: append the commit statement, snapshot the script text,
`clear()`. The returned string is the script handed to the executor. -/
def Batch.commit (st : Batch) (retries : Option Int) : Batch × String :=
  let st1 := st.appendStmt (commit_statement retries)
  (st1.clear, st1.str)

/-- The commit statement of `Batch.collect`: the `RETRY` clause is added
whenever `retries is not None`, so `0` gives `COMMIT RETRY 0`. -/
def collect_commit_statement : Option Int → String
  | some n => "COMMIT RETRY " ++ toString n
  | none => "COMMIT"

/-- The size-probe statement `LET _{0} = SELECT ${0}.size() as size`
emitted per collected variable. -/
def size_probe (v : String) : String :=
  "LET _" ++ v ++ " = SELECT $" ++ v ++ ".size() as size"

/-- One `$_{0},${0}` element of the `unionall` argument list. -/
def union_item (v : String) : String := "$_" ++ v ++ ",$" ++ v

/-- The fetch-plan suffix: `' FETCHPLAN ' + fetch` when `fetch` is truthy,
else empty. -/
def fetch_clause (fetch : String) : String :=
  if fetch != "" then " FETCHPLAN " ++ fetch else ""

/-- The `RETURN` statement of `Batch.collect`, rendered exactly as
`'RETURN (SELECT expand(unionall({}){})'.format(joined, fetch)`. -/
def collect_return (vars : List String) (fetch : String) : String :=
  "RETURN (SELECT expand(unionall(" ++
    String.intercalate "," (vars.map union_item) ++ ")" ++
    fetch_clause fetch ++ ")"

/-- The statements `Batch.collect` appends, in order: one size probe per
variable, the commit statement, the `RETURN`. `vars` is the enumeration
of `set(variables)`: duplicate-free, in the (arbitrary but fixed) order
that both the emission loops and the decoding loop share. -/
def collect_statements (vars : List String) (retries : Option Int)
    (fetch : String) : List String :=
  vars.map size_probe ++
    [collect_commit_statement retries] ++ [collect_return vars fetch]

/-- `Batch.collect`: append the statements, snapshot the script text,
`clear()`. -/
def Batch.collect (st : Batch) (vars : List String) (retries : Option Int)
    (fetch : String) : Batch × String :=
  let st1 := (collect_statements vars retries fetch).foldl Batch.appendStmt st
  (st1.clear, st1.str)

/-- A record of a collect response: a run-length record (whose
`oRecordData['size']` field the decoder reads) or a data record. -/
inductive ORec (α : Type) where
  | sizeRec (size : Nat)
  | dataRec (d : α)
deriving DecidableEq, Repr

/-- `record.oRecordData['size']`: only run-length records carry it; on a
data record the dict access would raise `KeyError` (modelled as `none`). -/
def ORec.sizeField : ORec α → Option Nat
  | .sizeRec n => some n
  | .dataRec _ => none

/-- The decoding loop of the `collect` closure: starting at `run_idx = 1`,
for each variable (in the shared enumeration order) read
`response[run_idx-1]` as the run length, slice
`response[run_idx:run_idx+run_length]` through the materializer `mat`
(`g.elements_from_records`), and continue at `sentinel + 1`. An
out-of-range run-length read raises `IndexError` (modelled `none`). -/
def collect_decode_go (mat : List (ORec α) → β) (response : List (ORec α)) :
    List String → Nat → Option (List (String × β))
  | [], _ => some []
  | v :: vs, runIdx =>
      match response.get? (runIdx - 1) with
      | none => none
      | some r =>
          match r.sizeField with
          | none => none
          | some len =>
              match collect_decode_go mat response vs (runIdx + len + 1) with
              | none => none
              | some rest =>
                  some ((v, mat ((response.drop runIdx).take len)) :: rest)

/-- The full decoding of a collect response. -/
def collect_decode (mat : List (ORec α) → β) (vars : List String)
    (response : List (ORec α)) : Option (List (String × β)) :=
  collect_decode_go mat response vars 1

/-- `BatchBranch.__enter__`: push a fresh block. -/
def Batch.branch_enter (st : Batch) : Batch :=
  { st with stack := st.stack ++ [[]] }

/-- The `if` statement text: `BatchBranch.IF.format(cond, body)` in
immediate mode, `BatchBranch.FORMAT_IF.format(cond, body)` (escaped, i.e.
doubled, braces for a later formatting pass) in compile mode. -/
def if_template (compile : Bool) (cond body : String) : String :=
  if compile then
    "if (" ++ cond ++ ") \x7b\x7b\n  " ++ body ++ "\n\x7d\x7d"
  else
    "if (" ++ cond ++ ") \x7b\n  " ++ body ++ "\n\x7d"

/-- `BatchBranch.__exit__`: if the body raised, first append `ROLLBACK` to
the (still current) nested block; pop the nested block; append the
rendered `if` statement to the new top block. The `cond` argument is the
condition's rendered text (`ArgConverter.convert_to(ArgConverter.Boolean,
...)`, an external converter). The returned flag is the context manager's
`return True`, which suppresses the exception. -/
def Batch.branch_exit (st : Batch) (cond : String) (raised : Bool) :
    Batch × Bool :=
  let st1 := if raised then st.appendStmt "ROLLBACK" else st
  let branch_commands := String.intercalate "\n" (st1.stack.getLast?.getD [])
  let st2 := { st1 with stack := st1.stack.dropLast }
  (st2.appendStmt (if_template st1.compile cond branch_commands), true)

/-- `CompiledBatch`: the compiled template text, the memoized formatted
text, and the executor. The executor slot (`self._executor`, a Python
generator or other iterator) is embedded as the lazy sequence of values it
will yield — `seq n` is the value `next` produces at the iterator's `n`-th
position, `none` meaning `StopIteration` — together with the current
position. -/
structure CompiledBatch (α : Type) where
  compiled : String
  formatted : Option String
  seq : Nat → Option α
  pos : Nat

/-- `CompiledBatch.format`: recompute (and memoize) whenever
`self._formatted is None` or positional or keyword arguments are given;
otherwise return the cached text. `subst` models the external stdlib
formatter composed with `FORMAT_ENCODER` applied to every argument
(`self._compiled.format(*map(encode, args), ...)`). -/
def CompiledBatch.format (subst : String → List String →
      List (String × String) → String) (cb : CompiledBatch α)
    (args : List String) (kwargs : List (String × String)) :
    String × CompiledBatch α :=
  match cb.formatted, args, kwargs with
  | some s, [], [] => (s, cb)
  | _, args, kwargs =>
      let s := subst cb.compiled args kwargs
      (s, { cb with formatted := some s })

/-- `CompiledBatch.set_executor` (without `suppress_return`): install a
fresh `while True: yield executor()` generator. The effectful `executor`
closure is embedded as the pure sequence `e` of the values its successive
calls produce, so the installed iterator never exhausts. (With
`suppress_return=True` the generator instead yields `executor() and None`
each time, i.e. the same construction with `e` post-composed with that
conversion.) -/
def CompiledBatch.set_executor (cb : CompiledBatch α) (e : Nat → α) :
    CompiledBatch α :=
  { cb with seq := fun n => some (e n), pos := 0 }

/-- `CompiledBatch.execute`: `next(self._executor)`, with `StopIteration`
caught and converted to a `None` result; the position advances only when
a value is produced. -/
def CompiledBatch.execute (cb : CompiledBatch α) :
    Option α × CompiledBatch α :=
  match cb.seq cb.pos with
  | some v => (some v, { cb with pos := cb.pos + 1 })
  | none => (none, cb)

/-- The operations a client can perform on a `Batch` while building a
script. A `branch` is the whole `with batch.if_(cond):` scope: the ops
its body executed, and whether the body then raised (in which case the
ops after the raise never ran). -/
inductive BatchOp where
  | assign (key : SetKey) (value : BValue)
  | sleepOp (ms : Nat)
  | read (key : BKey)
  | commitOp (retries : Option Int)
  | collectOp (vars : List String) (retries : Option Int) (fetch : String)
  | branch (cond : String) (body : List BatchOp) (raised : Bool)

mutual
/-- One operation on the batch state. Exceptions escaping `read` leave the
already-performed mutations in place (the op sequence would stop there in
Python, but noting that later ops only see the same state this models any
prefix as well). -/
def Batch.step (st : Batch) : BatchOp → Batch
  | .assign k v => st.setitem k v
  | .sleepOp ms => st.sleep ms
  | .read k => (st.getitem k).1
  | .commitOp r => (st.commit r).1
  | .collectOp vs r f => (st.collect vs r f).1
  | .branch cond body raised =>
      ((Batch.runOps st.branch_enter body).branch_exit cond raised).1

/-- Run a list of operations in order. -/
def Batch.runOps (st : Batch) : List BatchOp → Batch
  | [] => st
  | op :: ops => Batch.runOps (st.step op) ops
end

/-- The reachable-state invariant of claim C6: the stack is nonempty and
the bottom block starts with the `BEGIN` statement. -/
def Inv (iso : Nat) (st : Batch) : Prop :=
  match st.stack with
  | [] => False
  | b :: _ => b.head? = some (begin_statement iso)

theorem modifyLast_concat (f : α → α) : ∀ (l : List α) (a : α),
    modifyLast f (l ++ [a]) = l ++ [f a]
  | [], _ => rfl
  | x :: xs, a => by
    cases xs with
    | nil => rfl
    | cons y ys =>
        have ih := modifyLast_concat f (y :: ys) a
        show x :: modifyLast f ((y :: ys) ++ [a]) = x :: ((y :: ys) ++ [f a])
        rw [ih]

theorem modifyLast_length (f : α → α) : ∀ l : List α,
    (modifyLast f l).length = l.length
  | [] => rfl
  | [_] => rfl
  | x :: y :: rest => by
    have ih := modifyLast_length f (y :: rest)
    show (x :: modifyLast f (y :: rest)).length = (x :: y :: rest).length
    simp [ih]

/-- **C10.** The two commit paths treat a retry count of zero differently:
`Batch.commit` tests truthiness, so `retries=0` emits plain `COMMIT`,
while `Batch.collect` tests `retries is not None`, so `retries=0` emits
`COMMIT RETRY 0`; for every positive count both emit `COMMIT RETRY n`. -/
theorem commit_retry_zero_asymmetry :
    commit_statement (some 0) = "COMMIT" ∧
    collect_commit_statement (some 0) = "COMMIT RETRY 0" ∧
    ∀ n : Int, 0 < n →
      commit_statement (some n) = "COMMIT RETRY " ++ toString n ∧
      collect_commit_statement (some n) = "COMMIT RETRY " ++ toString n := by
  refine ⟨rfl, rfl, fun n hn => ⟨?_, rfl⟩⟩
  simp [commit_statement, bne_iff_ne, hn.ne']

/-- Witness for `commit_retry_zero_asymmetry` at `n = 2`. -/
theorem commit_retry_zero_asymmetry_witness :
    commit_statement (some 2) = "COMMIT RETRY " ++ toString (2 : Int) ∧
    collect_commit_statement (some 2) = "COMMIT RETRY " ++ toString (2 : Int) :=
  commit_retry_zero_asymmetry.2.2 2 (by decide)

/-- **C2 (code bug).** Committing with no return value through
`__getitem__` (an empty slice `batch[:]`, or a step-only slice
`batch[::3]`) appends its `COMMIT` line but then raises `TypeError`
inside `memoized_query_response` — `variables.get(returned[1:], None)`
subscripts `returned` while it is still `None` — before the script is
snapshot, before `clear()`, and before any executor is built, so the
claimed "execute and discard" closure is never reached on that path. -/
theorem getitem_noreturn_typeerror :
    (mkBatch 0 false).getitem (BKey.slice none none none) =
      (⟨[["BEGIN", "COMMIT"]], [], false⟩,
        Except.error BatchError.typeError) ∧
    (mkBatch 0 false).getitem (BKey.slice none none (some 3)) =
      (⟨[["BEGIN", "COMMIT RETRY 3"]], [], false⟩,
        Except.error BatchError.typeError) := by
  exact ⟨rfl, rfl⟩

/-- **C1 (counterexample).** The claim's (start, stop, step) table reads
component *presence*, but the code tests Python *truthiness*: a slice with
`start='$x'` and `step=0` is, per the claim, a "slice with step and start"
and should append `COMMIT RETRY 0` then `RETURN $x`; the code instead
treats the zero step as absent and appends `COMMIT\nRETURN $x`. -/
theorem getitem_zero_step_counterexample :
    (mkBatch 0 false).getitem
        (BKey.slice (some (RKey.str "$x")) none (some 0)) =
      (⟨[["BEGIN"]], [], false⟩,
        Except.ok (GetResult.committed "BEGIN\nCOMMIT\nRETURN $x" "$x" false)) ∧
    ("BEGIN\nCOMMIT\nRETURN $x" : String) ≠ "BEGIN\nCOMMIT RETRY 0\nRETURN $x" := by
  exact ⟨rfl, by decide⟩

/-- **C1 (amended).** Reading the builder with a key selects the finalize
mode by the Python truthiness of the slice components (a zero step, or an
empty start/stop, counts as absent): a slice with truthy step and truthy
start appends the single statement `COMMIT RETRY <step>\nRETURN <rendered
start>`; a slice with truthy step and no truthy start appends only
`COMMIT RETRY <step>`; a slice with no truthy step and a truthy stop
performs no commit and no script append, returning a copy of the Variable
bound to `stop` with equal reference and kind; an otherwise empty slice
appends `COMMIT`; a slice with only a truthy start appends
`COMMIT\nRETURN <rendered start>`; a nonempty plain key appends
`COMMIT\nRETURN <rendered key>`. Committing paths with a rendered return
snapshot the script and clear; committing paths without one abort with
`TypeError` after the append (see C2). -/
theorem getitem_finalize_modes (T : List String)
    (V : List (String × BatchVariable)) (n : Int) (k : RKey) (r : String)
    (name : String) (v : BatchVariable)
    (hn : n ≠ 0) (hk : k.truthy = true) (hr : return_string k = some r)
    (hname : valid_name name = true) (hv : lookupVar V name = some v) :
    (Batch.mk [T] V false).getitem (BKey.slice (some k) none (some n)) =
      (⟨[(T ++ ["COMMIT RETRY " ++ toString n ++ "\nRETURN " ++ r]).take 1],
          [], false⟩,
        Except.ok (GetResult.committed
          (String.intercalate "\n"
            (T ++ ["COMMIT RETRY " ++ toString n ++ "\nRETURN " ++ r]))
          r (capturedBQV V r))) ∧
    (Batch.mk [T] V false).getitem (BKey.slice none none (some n)) =
      (⟨[T ++ ["COMMIT RETRY " ++ toString n]], V, false⟩,
        Except.error BatchError.typeError) ∧
    ((Batch.mk [T] V false).getitem (BKey.slice none (some name) none) =
      (⟨[T], V, false⟩, Except.ok (GetResult.variable v.copy)) ∧
      v.copy.id = v.id ∧ v.copy.kind = v.kind) ∧
    (Batch.mk [T] V false).getitem (BKey.slice none none none) =
      (⟨[T ++ ["COMMIT"]], V, false⟩, Except.error BatchError.typeError) ∧
    (Batch.mk [T] V false).getitem (BKey.slice (some k) none none) =
      (⟨[(T ++ ["COMMIT\nRETURN " ++ r]).take 1], [], false⟩,
        Except.ok (GetResult.committed
          (String.intercalate "\n" (T ++ ["COMMIT\nRETURN " ++ r]))
          r (capturedBQV V r))) ∧
    (Batch.mk [T] V false).getitem (BKey.plain k) =
      (⟨[(T ++ ["COMMIT\nRETURN " ++ r]).take 1], [], false⟩,
        Except.ok (GetResult.committed
          (String.intercalate "\n" (T ++ ["COMMIT\nRETURN " ++ r]))
          r (capturedBQV V r))) := by
  simp only [valid_name, Bool.and_eq_true, Bool.not_eq_true', bne_iff_ne,
    ne_eq] at hname
  obtain ⟨⟨hinv, hne⟩, hdig⟩ := hname
  refine ⟨?_, ?_, ⟨?_, rfl, rfl⟩, ?_, ?_, ?_⟩ <;>
    simp [Batch.getitem, stepT, stepText, Batch.commit_with_return, hk, hr,
      Batch.finalize, Batch.appendStmt, modifyLast, Batch.str, Batch.clear,
      bne_iff_ne, hn, copy_variable, hinv, hne, hdig, hv]

/-- Witness for `getitem_finalize_modes` with `T = ["BEGIN"]`, a
`QueryResult` variable `x`, `n = 3`, start `'$x'`, stop `'x'`. -/
theorem getitem_finalize_modes_witness :
    (Batch.mk [["BEGIN"]]
        [("x", ⟨"$x", VarKind.QueryResult, BValue.retrievalCmd "SELECT FROM V"⟩)]
        false).getitem (BKey.slice (some (RKey.str "$x")) none (some 3)) =
      (⟨[(["BEGIN"] ++ ["COMMIT RETRY " ++ toString (3 : Int) ++ "\nRETURN " ++ "$x"]).take 1],
          [], false⟩,
        Except.ok (GetResult.committed
          (String.intercalate "\n"
            (["BEGIN"] ++ ["COMMIT RETRY " ++ toString (3 : Int) ++ "\nRETURN " ++ "$x"]))
          "$x"
          (capturedBQV
            [("x", ⟨"$x", VarKind.QueryResult, BValue.retrievalCmd "SELECT FROM V"⟩)]
            "$x"))) ∧
    (Batch.mk [["BEGIN"]]
        [("x", ⟨"$x", VarKind.QueryResult, BValue.retrievalCmd "SELECT FROM V"⟩)]
        false).getitem (BKey.slice none none (some 3)) =
      (⟨[["BEGIN"] ++ ["COMMIT RETRY " ++ toString (3 : Int)]],
          [("x", ⟨"$x", VarKind.QueryResult, BValue.retrievalCmd "SELECT FROM V"⟩)],
          false⟩,
        Except.error BatchError.typeError) ∧
    ((Batch.mk [["BEGIN"]]
        [("x", ⟨"$x", VarKind.QueryResult, BValue.retrievalCmd "SELECT FROM V"⟩)]
        false).getitem (BKey.slice none (some "x") none) =
      (⟨[["BEGIN"]],
          [("x", ⟨"$x", VarKind.QueryResult, BValue.retrievalCmd "SELECT FROM V"⟩)],
          false⟩,
        Except.ok (GetResult.variable
          (BatchVariable.copy
            ⟨"$x", VarKind.QueryResult, BValue.retrievalCmd "SELECT FROM V"⟩))) ∧
      (BatchVariable.copy
          ⟨"$x", VarKind.QueryResult, BValue.retrievalCmd "SELECT FROM V"⟩).id =
        (⟨"$x", VarKind.QueryResult, BValue.retrievalCmd "SELECT FROM V"⟩ :
          BatchVariable).id ∧
      (BatchVariable.copy
          ⟨"$x", VarKind.QueryResult, BValue.retrievalCmd "SELECT FROM V"⟩).kind =
        (⟨"$x", VarKind.QueryResult, BValue.retrievalCmd "SELECT FROM V"⟩ :
          BatchVariable).kind) ∧
    (Batch.mk [["BEGIN"]]
        [("x", ⟨"$x", VarKind.QueryResult, BValue.retrievalCmd "SELECT FROM V"⟩)]
        false).getitem (BKey.slice none none none) =
      (⟨[["BEGIN"] ++ ["COMMIT"]],
          [("x", ⟨"$x", VarKind.QueryResult, BValue.retrievalCmd "SELECT FROM V"⟩)],
          false⟩,
        Except.error BatchError.typeError) ∧
    (Batch.mk [["BEGIN"]]
        [("x", ⟨"$x", VarKind.QueryResult, BValue.retrievalCmd "SELECT FROM V"⟩)]
        false).getitem (BKey.slice (some (RKey.str "$x")) none none) =
      (⟨[(["BEGIN"] ++ ["COMMIT\nRETURN " ++ "$x"]).take 1], [], false⟩,
        Except.ok (GetResult.committed
          (String.intercalate "\n" (["BEGIN"] ++ ["COMMIT\nRETURN " ++ "$x"]))
          "$x"
          (capturedBQV
            [("x", ⟨"$x", VarKind.QueryResult, BValue.retrievalCmd "SELECT FROM V"⟩)]
            "$x"))) ∧
    (Batch.mk [["BEGIN"]]
        [("x", ⟨"$x", VarKind.QueryResult, BValue.retrievalCmd "SELECT FROM V"⟩)]
        false).getitem (BKey.plain (RKey.str "$x")) =
      (⟨[(["BEGIN"] ++ ["COMMIT\nRETURN " ++ "$x"]).take 1], [], false⟩,
        Except.ok (GetResult.committed
          (String.intercalate "\n" (["BEGIN"] ++ ["COMMIT\nRETURN " ++ "$x"]))
          "$x"
          (capturedBQV
            [("x", ⟨"$x", VarKind.QueryResult, BValue.retrievalCmd "SELECT FROM V"⟩)]
            "$x"))) :=
  getitem_finalize_modes ["BEGIN"]
    [("x", ⟨"$x", VarKind.QueryResult, BValue.retrievalCmd "SELECT FROM V"⟩)]
    3 (RKey.str "$x") "$x" "x"
    ⟨"$x", VarKind.QueryResult, BValue.retrievalCmd "SELECT FROM V"⟩
    (by decide) (by decide) (by decide) (by decide) (by decide)

/-- **C3.** For every `collect(a, b)` with two distinct variable names the
emitted script is exactly one size-probe `LET` per variable, one `COMMIT`,
and one `RETURN` whose `unionall` argument list pairs each probe `$_v`
with its variable `$v` in the same enumeration order as the probes; and
decoding the run-length-framed response `[2, x1, x2, 1, y1]` for that
order yields `a` bound to the materialized slice `[x1, x2]` and `b` to
`[y1]`, by reading each run-length record and slicing that many following
records. -/
theorem collect_script_and_decode (a b : String) (mat : List (ORec α) → β)
    (x1 x2 y1 : α) (_hab : a ≠ b) :
    collect_statements [a, b] none "" =
      ["LET _" ++ a ++ " = SELECT $" ++ a ++ ".size() as size",
        "LET _" ++ b ++ " = SELECT $" ++ b ++ ".size() as size",
        "COMMIT",
        "RETURN (SELECT expand(unionall(" ++ "$_" ++ a ++ ",$" ++ a ++
          "," ++ "$_" ++ b ++ ",$" ++ b ++ ")" ++ ")"] ∧
    collect_decode mat [a, b]
        [ORec.sizeRec 2, ORec.dataRec x1, ORec.dataRec x2, ORec.sizeRec 1,
          ORec.dataRec y1] =
      some [(a, mat [ORec.dataRec x1, ORec.dataRec x2]),
        (b, mat [ORec.dataRec y1])] := by
  constructor
  · simp [collect_statements, collect_return, collect_commit_statement,
      fetch_clause, size_probe, union_item, String.intercalate,
      String.intercalate.go, ← String.append_assoc, String.append_empty]
  · rfl

/-- Witness for `collect_script_and_decode` at `a = "a"`, `b = "b"`,
identity materializer, string data records. -/
theorem collect_script_and_decode_witness :
    collect_statements ["a", "b"] none "" =
      ["LET _" ++ "a" ++ " = SELECT $" ++ "a" ++ ".size() as size",
        "LET _" ++ "b" ++ " = SELECT $" ++ "b" ++ ".size() as size",
        "COMMIT",
        "RETURN (SELECT expand(unionall(" ++ "$_" ++ "a" ++ ",$" ++ "a" ++
          "," ++ "$_" ++ "b" ++ ",$" ++ "b" ++ ")" ++ ")"] ∧
    collect_decode (fun rs => rs) ["a", "b"]
        [ORec.sizeRec 2, ORec.dataRec "x1", ORec.dataRec "x2", ORec.sizeRec 1,
          ORec.dataRec "y1"] =
      some [("a", [ORec.dataRec "x1", ORec.dataRec "x2"]),
        ("b", [ORec.dataRec "y1"])] :=
  collect_script_and_decode "a" "b" (fun rs => rs) "x1" "x2" "y1" (by decide)

/-- **C4 (counterexample).** Assigning a value that is itself a batch
variable is a non-command assignment, yet it does not register a `Plain`
variable: `__setitem__` keeps the value's own class
(`VarType = value.__class__`), so storing a vertex-kind variable under a
new name and reading it back without commit yields kind `Vertex`, not
`Plain`. -/
theorem setitem_varval_kind_counterexample :
    ((mkBatch 0 false).setitem (SetKey.name "w")
        (BValue.varval VarKind.Vertex "$v" "$v")).getitem
        (BKey.slice none (some "w") none) =
      ((mkBatch 0 false).setitem (SetKey.name "w")
          (BValue.varval VarKind.Vertex "$v" "$v"),
        Except.ok (GetResult.variable
          ⟨"$w", VarKind.Vertex, BValue.varval VarKind.Vertex "$v" "$v"⟩)) ∧
    VarKind.Vertex ≠ VarKind.Plain := by
  exact ⟨rfl, by decide⟩

/-- **C4 (amended).** For every assignment of a non-slice key, the
registered Variable's kind follows the classification of `__setitem__`:
vertex-creating command gives `Vertex`, edge-creating command gives
`Edge`, any other retrieval command gives `QueryResult`, a non-command
value that is itself a batch variable keeps that variable's kind, and any
other non-command value gives `Plain` (converted to dialect text by the
external converter, carried as `letText`); a subsequent no-commit read of
the same (valid) key returns a Variable of exactly that kind. -/
theorem setitem_kind_classification (st : Batch) (k : String) (v : BValue)
    (hk : valid_name k = true) :
    (∀ t, varTypeOf (BValue.vertexCmd t) = VarKind.Vertex) ∧
    (∀ t, varTypeOf (BValue.edgeCmd t) = VarKind.Edge) ∧
    (∀ t, varTypeOf (BValue.retrievalCmd t) = VarKind.QueryResult) ∧
    (∀ kd p c, varTypeOf (BValue.varval kd p c) = kd) ∧
    (∀ p c, varTypeOf (BValue.plainVal p c) = VarKind.Plain) ∧
    (st.setitem (SetKey.name k) v).getitem (BKey.slice none (some k) none) =
      (st.setitem (SetKey.name k) v,
        Except.ok (GetResult.variable ⟨"$" ++ k, varTypeOf v, v⟩)) := by
  simp only [valid_name, Bool.and_eq_true, Bool.not_eq_true', bne_iff_ne,
    ne_eq] at hk
  obtain ⟨⟨hinv, hne⟩, hdig⟩ := hk
  refine ⟨fun _ => rfl, fun _ => rfl, fun _ => rfl, fun _ _ _ => rfl,
    fun _ _ => rfl, ?_⟩
  simp [Batch.getitem, stepT, Batch.setitem, copy_variable, lookupVar,
    BatchVariable.copy, bne_iff_ne, hinv, hne, hdig]

/-- Witness for `setitem_kind_classification` at key `"v"` with a
vertex-creating command. -/
theorem setitem_kind_classification_witness :
    (∀ t, varTypeOf (BValue.vertexCmd t) = VarKind.Vertex) ∧
    (∀ t, varTypeOf (BValue.edgeCmd t) = VarKind.Edge) ∧
    (∀ t, varTypeOf (BValue.retrievalCmd t) = VarKind.QueryResult) ∧
    (∀ kd p c, varTypeOf (BValue.varval kd p c) = kd) ∧
    (∀ p c, varTypeOf (BValue.plainVal p c) = VarKind.Plain) ∧
    ((mkBatch 0 false).setitem (SetKey.name "v")
        (BValue.vertexCmd "CREATE VERTEX V")).getitem
        (BKey.slice none (some "v") none) =
      ((mkBatch 0 false).setitem (SetKey.name "v")
          (BValue.vertexCmd "CREATE VERTEX V"),
        Except.ok (GetResult.variable
          ⟨"$" ++ "v", varTypeOf (BValue.vertexCmd "CREATE VERTEX V"),
            BValue.vertexCmd "CREATE VERTEX V"⟩)) :=
  setitem_kind_classification (mkBatch 0 false) "v"
    (BValue.vertexCmd "CREATE VERTEX V") (by decide)

/-- **C5.** For every branch scope over parent stack `S` (in immediate
mode): exiting with nested block `B` and no error pops the block and
appends to the parent top block the single statement
`if (<cond-text>) {\n  <body>\n}`; if the body raised, `ROLLBACK` is first
appended to the nested block, so the parent receives the `if` statement
over `<body>\nROLLBACK` — in particular `if (<cond-text>) {\n  ROLLBACK\n}`
when the body had emitted nothing; the stack depth returns to the
pre-branch depth `S.length`; and the exit flag is `true` (the context
manager suppresses the exception, so the error is not propagated past the
branch boundary). -/
theorem branch_exit_scope (S : List (List String))
    (V : List (String × BatchVariable)) (cond : String) :
    (∀ B, (Batch.mk (S ++ [B]) V false).branch_exit cond false =
      ({ stack := modifyLast (fun blk => blk ++
            [if_template false cond (String.intercalate "\n" B)]) S,
          varmap := V, compile := false }, true)) ∧
    (∀ B, (Batch.mk (S ++ [B]) V false).branch_exit cond true =
      ({ stack := modifyLast (fun blk => blk ++
            [if_template false cond
              (String.intercalate "\n" (B ++ ["ROLLBACK"]))]) S,
          varmap := V, compile := false }, true)) ∧
    (∀ s, (modifyLast (fun blk => blk ++ [s]) S).length = S.length) ∧
    (Batch.mk (S ++ [[]]) V false).branch_exit cond true =
      ({ stack := modifyLast (fun blk => blk ++
            ["if (" ++ cond ++ ") \x7b\n  " ++ "ROLLBACK" ++ "\n\x7d"]) S,
          varmap := V, compile := false }, true) := by
  refine ⟨fun B => ?_, fun B => ?_, fun s => modifyLast_length _ S, ?_⟩
  · simp [Batch.branch_exit, Batch.appendStmt, List.getLast?_concat,
      List.dropLast_concat]
  · simp [Batch.branch_exit, Batch.appendStmt, modifyLast_concat,
      List.getLast?_concat, List.dropLast_concat]
  · simp [Batch.branch_exit, Batch.appendStmt, modifyLast_concat,
      List.getLast?_concat, List.dropLast_concat, if_template,
      String.intercalate, String.intercalate.go]

/-- **C7.** With no sanitizer hook installed, assignment accepts any name
verbatim (the key is stored as given and the `LET` line is emitted without
validation); but reading a name back through `copy_variable` fails with
`ValueError` (the `InvalidNameError`) when the name contains a character
of `INVALID_CHARS` (whitespace or punctuation other than underscore) or
begins with a digit, while a well-formed name that was never assigned
fails with `KeyError` — a distinct error. -/
theorem copy_variable_name_errors (V : List (String × BatchVariable))
    (name : String) :
    (∀ (st : Batch) (val : BValue),
      (st.setitem (SetKey.name name) val).varmap =
        (name, ⟨"$" ++ name, varTypeOf val, val⟩) :: st.varmap) ∧
    (name.data.any charInvalid = true →
      copy_variable V name = Except.error BatchError.valueError) ∧
    (name ≠ "" → name.front.isDigit = true →
      copy_variable V name = Except.error BatchError.valueError) ∧
    (valid_name name = true → lookupVar V name = none →
      copy_variable V name = Except.error BatchError.keyError) ∧
    BatchError.valueError ≠ BatchError.keyError := by
  refine ⟨fun st val => rfl, fun h => by simp [copy_variable, h],
    fun h1 h2 => ?_, fun h1 h2 => ?_, by decide⟩
  · rcases Bool.eq_false_or_eq_true (name.data.any charInvalid) with h | h <;>
      simp [copy_variable, h, h1, h2]
  · simp only [valid_name, Bool.and_eq_true, Bool.not_eq_true',
      bne_iff_ne, ne_eq] at h1
    obtain ⟨⟨hinv, hne⟩, hdig⟩ := h1
    simp [copy_variable, hinv, hne, hdig, h2]

/-- Witness for `copy_variable_name_errors`: a space-bearing name and a
digit-leading name are rejected as invalid, a well-formed unassigned name
is a key error, and the two errors differ. -/
theorem copy_variable_name_errors_witness :
    ((mkBatch 0 false).setitem (SetKey.name "a b")
        (BValue.plainVal "1" "1")).varmap =
      ("a b", ⟨"$" ++ "a b", varTypeOf (BValue.plainVal "1" "1"),
        BValue.plainVal "1" "1"⟩) :: (mkBatch 0 false).varmap ∧
    copy_variable [] "a b" = Except.error BatchError.valueError ∧
    copy_variable [] "9x" = Except.error BatchError.valueError ∧
    copy_variable [] "missing" = Except.error BatchError.keyError ∧
    BatchError.valueError ≠ BatchError.keyError :=
  ⟨(copy_variable_name_errors [] "a b").1 (mkBatch 0 false)
      (BValue.plainVal "1" "1"),
    (copy_variable_name_errors [] "a b").2.1 (by decide),
    (copy_variable_name_errors [] "9x").2.2.1 (by decide) (by decide),
    (copy_variable_name_errors [] "missing").2.2.2.1 (by decide) rfl,
    (copy_variable_name_errors [] "missing").2.2.2.2⟩

/-- **C8.** `format` substitutes and caches: a call with arguments
computes the substitution on the compiled template and stores it; a
subsequent call with no arguments returns exactly the cached text and
state (`format(a)` then `format()` equals `format(a)`); a new call with
arguments replaces the cache with the fresh substitution. -/
theorem format_caches
    (subst : String → List String → List (String × String) → String)
    (cb : CompiledBatch α) (a : List String) (ha : a ≠ []) :
    CompiledBatch.format subst cb a [] =
      (subst cb.compiled a [],
        { cb with formatted := some (subst cb.compiled a []) }) ∧
    CompiledBatch.format subst (CompiledBatch.format subst cb a []).2 [] [] =
      CompiledBatch.format subst cb a [] ∧
    (∀ b, b ≠ [] →
      CompiledBatch.format subst (CompiledBatch.format subst cb a []).2 b [] =
        (subst cb.compiled b [],
          { cb with formatted := some (subst cb.compiled b []) })) := by
  obtain ⟨x, rest, rfl⟩ := List.exists_cons_of_ne_nil ha
  have h1 : CompiledBatch.format subst cb (x :: rest) [] =
      (subst cb.compiled (x :: rest) [],
        { cb with formatted := some (subst cb.compiled (x :: rest) []) }) := by
    cases hf : cb.formatted <;> simp [CompiledBatch.format]
  refine ⟨h1, ?_, fun b hb => ?_⟩
  · rw [h1]
    simp [CompiledBatch.format]
  · obtain ⟨y, t, rfl⟩ := List.exists_cons_of_ne_nil hb
    rw [h1]
    simp [CompiledBatch.format]

/-- Witness for `format_caches` with a concrete template, substitution
function and argument lists. -/
theorem format_caches_witness :
    CompiledBatch.format (fun t args _ => t ++ String.intercalate "," args)
        (⟨"tpl", none, fun _ => none, 0⟩ : CompiledBatch Nat) ["p"] [] =
      ("tpl" ++ String.intercalate "," ["p"],
        { (⟨"tpl", none, fun _ => none, 0⟩ : CompiledBatch Nat) with
          formatted := some ("tpl" ++ String.intercalate "," ["p"]) }) ∧
    CompiledBatch.format (fun t args _ => t ++ String.intercalate "," args)
        (CompiledBatch.format (fun t args _ => t ++ String.intercalate "," args)
          (⟨"tpl", none, fun _ => none, 0⟩ : CompiledBatch Nat) ["p"] []).2 [] [] =
      CompiledBatch.format (fun t args _ => t ++ String.intercalate "," args)
        (⟨"tpl", none, fun _ => none, 0⟩ : CompiledBatch Nat) ["p"] [] ∧
    CompiledBatch.format (fun t args _ => t ++ String.intercalate "," args)
        (CompiledBatch.format (fun t args _ => t ++ String.intercalate "," args)
          (⟨"tpl", none, fun _ => none, 0⟩ : CompiledBatch Nat) ["p"] []).2 ["q"] [] =
      ("tpl" ++ String.intercalate "," ["q"],
        { (⟨"tpl", none, fun _ => none, 0⟩ : CompiledBatch Nat) with
          formatted := some ("tpl" ++ String.intercalate "," ["q"]) }) := by
  have h := format_caches (fun t args _ => t ++ String.intercalate "," args)
    (⟨"tpl", none, fun _ => none, 0⟩ : CompiledBatch Nat) ["p"]
    (by decide)
  exact ⟨h.1, h.2.1, h.2.2 ["q"] (by decide)⟩

/-- **C9.** For a compiled batch, each `execute()` returns the next
element of the embedded lazy execution sequence and advances the
position; when the sequence is exhausted (`StopIteration`), `execute()`
returns `none` (Python `None`) instead of an error and does not advance;
and an executor armed by `set_executor` yields its first execution value
immediately and its sequence is never exhausted. -/
theorem compiled_execute_lazy_seq (cb : CompiledBatch α) (v : α)
    (e : Nat → α) :
    (cb.seq cb.pos = some v →
      cb.execute = (some v, { cb with pos := cb.pos + 1 })) ∧
    (cb.seq cb.pos = none → cb.execute = (none, cb)) ∧
    (cb.set_executor e).execute =
      (some (e 0), { cb with seq := fun n => some (e n), pos := 1 }) ∧
    (∀ n, ((cb.set_executor e).seq n).isSome = true) := by
  refine ⟨fun h => by simp [CompiledBatch.execute, h],
    fun h => by simp [CompiledBatch.execute, h],
    by simp [CompiledBatch.execute, CompiledBatch.set_executor],
    fun n => rfl⟩

/-- Witness for `compiled_execute_lazy_seq`: a one-element sequence
yields its element then `none`, and arming an executor yields its first
value. -/
theorem compiled_execute_lazy_seq_witness :
    (⟨"t", none, fun n => if n < 1 then some 7 else none, 0⟩ :
        CompiledBatch Nat).execute =
      (some 7, { (⟨"t", none, fun n => if n < 1 then some 7 else none, 0⟩ :
        CompiledBatch Nat) with pos := 0 + 1 }) ∧
    (⟨"t", none, fun n => if n < 1 then some 7 else none, 1⟩ :
        CompiledBatch Nat).execute =
      (none, (⟨"t", none, fun n => if n < 1 then some 7 else none, 1⟩ :
        CompiledBatch Nat)) ∧
    ((⟨"t", none, fun _ => none, 5⟩ : CompiledBatch Nat).set_executor
        (fun n => n + 10)).execute =
      (some ((fun n => n + 10) 0),
        { (⟨"t", none, fun _ => none, 5⟩ : CompiledBatch Nat) with
          seq := fun n => some ((fun n => n + 10) n), pos := 1 }) :=
  ⟨(compiled_execute_lazy_seq
      (⟨"t", none, fun n => if n < 1 then some 7 else none, 0⟩ :
        CompiledBatch Nat) 7 id).1 (by decide),
    (compiled_execute_lazy_seq
      (⟨"t", none, fun n => if n < 1 then some 7 else none, 1⟩ :
        CompiledBatch Nat) 7 id).2.1 (by decide),
    (compiled_execute_lazy_seq
      (⟨"t", none, fun _ => none, 5⟩ : CompiledBatch Nat) 7
      (fun n => n + 10)).2.2.1⟩

theorem inv_appendStmt (iso : Nat) (st : Batch) (s : String)
    (h : Inv iso st) : Inv iso (st.appendStmt s) := by
  unfold Inv at *
  rcases hst : st.stack with _ | ⟨b, rest⟩
  · rw [hst] at h; exact h.elim
  · rw [hst] at h
    cases rest with
    | nil =>
        rcases b with _ | ⟨x, xs⟩
        · simp at h
        · simpa [Batch.appendStmt, hst, modifyLast] using h
    | cons c rest' =>
        simpa [Batch.appendStmt, hst, modifyLast] using h

theorem appendStmt_stack_length (st : Batch) (s : String) :
    (st.appendStmt s).stack.length = st.stack.length := by
  simp [Batch.appendStmt, modifyLast_length]

theorem inv_clear (iso : Nat) (st : Batch) (h : Inv iso st) :
    Inv iso st.clear := by
  unfold Inv at *
  rcases hst : st.stack with _ | ⟨b, rest⟩
  · rw [hst] at h; exact h.elim
  · rw [hst] at h
    rcases b with _ | ⟨x, xs⟩
    · simp at h
    · simpa [Batch.clear, hst] using h

theorem clear_stack_length (st : Batch) :
    st.clear.stack.length = st.stack.length := by
  rcases hst : st.stack with _ | ⟨b, rest⟩ <;> simp [Batch.clear, hst]

theorem inv_finalize (iso : Nat) (st : Batch) (line : String)
    (ret : Option String) (h : Inv iso st) :
    Inv iso (st.finalize line ret).1 ∧
    (st.finalize line ret).1.stack.length = st.stack.length := by
  cases ret with
  | none =>
      exact ⟨inv_appendStmt iso st line h, appendStmt_stack_length st line⟩
  | some r =>
      refine ⟨inv_clear iso _ (inv_appendStmt iso st line h), ?_⟩
      rw [show (st.finalize line (some r)).1 = (st.appendStmt line).clear
        from rfl]
      rw [clear_stack_length, appendStmt_stack_length]

theorem inv_commit_with_return (iso : Nat) (st : Batch) (line : String)
    (start : Option RKey) (h : Inv iso st) :
    Inv iso (st.commit_with_return line start).1 ∧
    (st.commit_with_return line start).1.stack.length = st.stack.length := by
  cases start with
  | none => exact inv_finalize iso st line none h
  | some k =>
      simp only [Batch.commit_with_return]
      split
      · split
        · exact inv_finalize iso st _ _ h
        · exact ⟨h, rfl⟩
      · exact inv_finalize iso st _ _ h

theorem inv_getitem (iso : Nat) (st : Batch) (k : BKey) (h : Inv iso st) :
    Inv iso (st.getitem k).1 ∧
    (st.getitem k).1.stack.length = st.stack.length := by
  cases k with
  | plain rk =>
      simp only [Batch.getitem]
      split
      · exact inv_finalize iso st _ _ h
      · exact ⟨h, rfl⟩
  | slice start stop step =>
      simp only [Batch.getitem]
      split
      · exact inv_commit_with_return iso st _ start h
      · split
        · split
          · split
            · exact ⟨h, rfl⟩
            · exact ⟨h, rfl⟩
          · exact inv_commit_with_return iso st _ start h
        · exact inv_commit_with_return iso st _ start h

theorem inv_commit (iso : Nat) (st : Batch) (r : Option Int)
    (h : Inv iso st) :
    Inv iso (st.commit r).1 ∧
    (st.commit r).1.stack.length = st.stack.length := by
  refine ⟨inv_clear iso _ (inv_appendStmt iso st _ h), ?_⟩
  rw [show (st.commit r).1 = (st.appendStmt (commit_statement r)).clear
    from rfl]
  rw [clear_stack_length, appendStmt_stack_length]

theorem inv_foldl_append (iso : Nat) : ∀ (ls : List String) (st : Batch),
    Inv iso st →
    Inv iso (ls.foldl Batch.appendStmt st) ∧
    (ls.foldl Batch.appendStmt st).stack.length = st.stack.length
  | [], st, h => ⟨h, rfl⟩
  | s :: ls, st, h => by
      have h1 := inv_appendStmt iso st s h
      have h2 := inv_foldl_append iso ls (st.appendStmt s) h1
      refine ⟨h2.1, ?_⟩
      rw [show (s :: ls).foldl Batch.appendStmt st =
        ls.foldl Batch.appendStmt (st.appendStmt s) from rfl]
      rw [h2.2, appendStmt_stack_length]

theorem inv_collect (iso : Nat) (st : Batch) (vs : List String)
    (r : Option Int) (f : String) (h : Inv iso st) :
    Inv iso (st.collect vs r f).1 ∧
    (st.collect vs r f).1.stack.length = st.stack.length := by
  have h1 := inv_foldl_append iso (collect_statements vs r f) st h
  refine ⟨inv_clear iso _ h1.1, ?_⟩
  rw [show (st.collect vs r f).1 =
    ((collect_statements vs r f).foldl Batch.appendStmt st).clear from rfl]
  rw [clear_stack_length, h1.2]

theorem inv_setitem (iso : Nat) (st : Batch) (k : SetKey) (v : BValue)
    (h : Inv iso st) :
    Inv iso (st.setitem k v) ∧
    (st.setitem k v).stack.length = st.stack.length := by
  cases k with
  | sliceKey =>
      exact ⟨inv_appendStmt iso st _ h, appendStmt_stack_length st _⟩
  | name n =>
      have h1 := inv_appendStmt iso st ("LET " ++ n ++ " = " ++ v.letText) h
      have h2 := appendStmt_stack_length st ("LET " ++ n ++ " = " ++ v.letText)
      exact ⟨h1, h2⟩

theorem inv_branch_enter (iso : Nat) (st : Batch) (h : Inv iso st) :
    Inv iso st.branch_enter ∧
    st.branch_enter.stack.length = st.stack.length + 1 := by
  unfold Inv at *
  rcases hst : st.stack with _ | ⟨b, rest⟩
  · rw [hst] at h; exact h.elim
  · rw [hst] at h
    constructor
    · simpa [Batch.branch_enter, hst] using h
    · simp [Batch.branch_enter, hst]

theorem inv_branch_exit (iso : Nat) (st : Batch) (cond : String)
    (raised : Bool) (h : Inv iso st) (h2 : 2 ≤ st.stack.length) :
    Inv iso (st.branch_exit cond raised).1 ∧
    (st.branch_exit cond raised).1.stack.length + 1 = st.stack.length := by
  have key : ∀ (st1 : Batch), Inv iso st1 → 2 ≤ st1.stack.length →
      Inv iso (⟨st1.stack.dropLast, st1.varmap, st1.compile⟩ : Batch) ∧
      (st1.stack.dropLast.length + 1 = st1.stack.length) := by
    intro st1 hI hL
    rcases hst : st1.stack with _ | ⟨b, rest⟩
    · rw [hst] at hL; simp at hL
    · rcases rest with _ | ⟨c, rest'⟩
      · rw [hst] at hL; simp at hL
      · unfold Inv at hI ⊢
        rw [hst] at hI
        constructor
        · simpa [hst, List.dropLast] using hI
        · simp [hst]
  have step1 : Inv iso (if raised then st.appendStmt "ROLLBACK" else st) ∧
      (if raised then st.appendStmt "ROLLBACK" else st).stack.length =
        st.stack.length := by
    cases raised with
    | false => exact ⟨h, rfl⟩
    | true =>
        exact ⟨inv_appendStmt iso st _ h, appendStmt_stack_length st _⟩
  set st1 := if raised then st.appendStmt "ROLLBACK" else st with hst1
  have hL1 : 2 ≤ st1.stack.length := by rw [step1.2]; exact h2
  have hkey := key st1 step1.1 hL1
  have hx : (st.branch_exit cond raised).1 =
      (⟨st1.stack.dropLast, st1.varmap, st1.compile⟩ : Batch).appendStmt
        (if_template st1.compile cond
          (String.intercalate "\n" (st1.stack.getLast?.getD []))) := by
    simp only [Batch.branch_exit, hst1]
  rw [hx]
  refine ⟨inv_appendStmt iso _ _ hkey.1, ?_⟩
  rw [appendStmt_stack_length]
  show st1.stack.dropLast.length + 1 = st.stack.length
  rw [hkey.2, step1.2]

mutual
theorem inv_step (iso : Nat) (op : BatchOp) (st : Batch) (h : Inv iso st) :
    Inv iso (st.step op) ∧ (st.step op).stack.length = st.stack.length :=
  match op with
  | .assign k v => inv_setitem iso st k v h
  | .sleepOp ms =>
      ⟨inv_appendStmt iso st _ h, appendStmt_stack_length st _⟩
  | .read k => inv_getitem iso st k h
  | .commitOp r => inv_commit iso st r h
  | .collectOp vs r f => inv_collect iso st vs r f h
  | .branch cond body raised => by
      have he := inv_branch_enter iso st h
      have hb := inv_runOps iso body st.branch_enter he.1
      have hL : 2 ≤ (Batch.runOps st.branch_enter body).stack.length := by
        rw [hb.2, he.2]
        have : 1 ≤ st.stack.length := by
          unfold Inv at h
          rcases hst : st.stack with _ | ⟨b, rest⟩
          · rw [hst] at h; exact h.elim
          · simp
        omega
      have hx := inv_branch_exit iso (Batch.runOps st.branch_enter body)
        cond raised hb.1 hL
      refine ⟨hx.1, ?_⟩
      have e1 := hx.2
      have e2 := hb.2
      have e3 := he.2
      show ((Batch.runOps st.branch_enter body).branch_exit cond
        raised).1.stack.length = st.stack.length
      omega

theorem inv_runOps (iso : Nat) (ops : List BatchOp) (st : Batch)
    (h : Inv iso st) :
    Inv iso (Batch.runOps st ops) ∧
    (Batch.runOps st ops).stack.length = st.stack.length :=
  match ops with
  | [] => ⟨h, rfl⟩
  | op :: rest => by
      have h1 := inv_step iso op st h
      have h2 := inv_runOps iso rest (st.step op) h1.1
      refine ⟨h2.1, ?_⟩
      rw [show Batch.runOps st (op :: rest) =
        Batch.runOps (st.step op) rest from rfl]
      rw [h2.2]
      exact h1.2
end

/-- **C6.** For every isolation level and every sequence of batch
operations: the freshly constructed builder has an empty variables map and
a single bottom block holding exactly the `BEGIN` statement —
`BEGIN ISOLATION REPEATABLE_READ` for `REPEATABLE_READ` (1), plain
`BEGIN` otherwise; the block stack of every reachable state is nonempty;
and applying `clear()` (as the commit-type operations do) to any reachable
state empties the variables map and truncates the bottom block to exactly
its leading `BEGIN` statement. -/
theorem batch_begin_invariant (iso : Nat) (ops : List BatchOp) :
    mkBatch iso false = ⟨[[begin_statement iso]], [], false⟩ ∧
    begin_statement 1 = "BEGIN ISOLATION REPEATABLE_READ" ∧
    begin_statement 0 = "BEGIN" ∧
    1 ≤ (Batch.runOps (mkBatch iso false) ops).stack.length ∧
    (Batch.runOps (mkBatch iso false) ops).clear.varmap = [] ∧
    (Batch.runOps (mkBatch iso false) ops).clear.stack.head? =
      some [begin_statement iso] := by
  have h0 : Inv iso (mkBatch iso false) := by
    unfold Inv mkBatch
    simp
  have hr := (inv_runOps iso ops (mkBatch iso false) h0).1
  unfold Inv at hr
  rcases hst : (Batch.runOps (mkBatch iso false) ops).stack
    with _ | ⟨b, rest⟩
  · rw [hst] at hr; exact hr.elim
  · rw [hst] at hr
    rcases b with _ | ⟨x, xs⟩
    · simp at hr
    · simp only [List.head?] at hr
      have hx := Option.some.inj hr
      subst hx
      refine ⟨rfl, rfl, rfl, by simp, rfl, ?_⟩
      simp [Batch.clear, hst]

end PyorientBatch
